import Mathlib

/-!
Verification of the DockMaster container-management dashboard (Go sources)
against its natural-language specification.

The Go code is shallowly embedded: strings manipulated by the Go
`strings`/`strconv` standard-library calls are modelled as `List Char`
(`Str` below) together with executable Lean translations of the exact
standard-library behaviour the code relies on; stateful handlers become
pure functions from explicit inputs (user store, clock, subprocess
results) to responses and updated state; calls that cross the process
boundary (bcrypt, JSON decoding, the docker CLI) are parameters of the
embedding, so every theorem is stated for all behaviours of those
collaborators unless a hypothesis pins them down.
-/

namespace DockMaster

/-- Go strings, modelled as lists of characters. -/
abbrev Str := List Char

/-- `unicode.IsSpace` restricted to the characters that actually occur in
CLI output (ASCII whitespace plus NEL and NBSP, as in Go's table). -/
def goIsSpace (c : Char) : Bool :=
  c.toNat = 32 || c.toNat = 9 || c.toNat = 10 || c.toNat = 11 || c.toNat = 12 ||
  c.toNat = 13 || c.toNat = 133 || c.toNat = 160

/-- `strings.TrimSpace`, left side. -/
def trimLeft (s : Str) : Str := s.dropWhile goIsSpace

/-- `strings.TrimSpace`, right side. -/
def trimRight (s : Str) : Str := (s.reverse.dropWhile goIsSpace).reverse

/-- Go `strings.TrimSpace`. -/
def trimSpace (s : Str) : Str := trimRight (trimLeft s)

/-- Go `strings.Contains s sub` (recursion on `s`). -/
def goContains (s sub : Str) : Bool :=
  match s with
  | [] => sub.isEmpty
  | _ :: rest => sub.isPrefixOf s || goContains rest sub

/-- Worker for `goSplit`: scans `s`, cutting at each leftmost,
non-overlapping occurrence of `sep`; `acc` holds the current token in
reverse.  Faithful to Go `strings.Split` for the non-empty separators the
sources use. -/
def splitSeqAux (sep : Str) (acc : Str) : Str → List Str
  | [] => [acc.reverse]
  | c :: rest =>
    if sep.isPrefixOf (c :: rest) then
      acc.reverse :: splitSeqAux sep [] (rest.drop (sep.length - 1))
    else
      splitSeqAux sep (c :: acc) rest
termination_by s => s.length
decreasing_by
  · simp only [List.length_drop, List.length_cons]; omega
  · simp

/-- Go `strings.Split s sep` (for the non-empty `sep` used in the code). -/
def goSplit (s sep : Str) : List Str := splitSeqAux sep [] s

/-- Go `strings.HasSuffix`/`strings.TrimSuffix` pair: drop `suffix` from
the end when present, else return `s` unchanged. -/
def goTrimEnd (s suffix : Str) : Str :=
  if suffix.isSuffixOf s then s.take (s.length - suffix.length) else s

/-- Go `strings.TrimPrefix s pre`. -/
def goTrimStart (s pre : Str) : Str :=
  if pre.isPrefixOf s then s.drop pre.length else s

/-- Go `strings.LastIndex s [c]` (`none` models -1). -/
def lastIndexOfChar : Str → Char → Option Nat
  | [], _ => none
  | a :: rest, c =>
    match lastIndexOfChar rest c with
    | some i => some (i + 1)
    | none => if a = c then some 0 else none

/-- Go `strings.Index s [c]` (`none` models -1). -/
def indexOfChar : Str → Char → Option Nat
  | [], _ => none
  | a :: rest, c => if a = c then some 0 else (indexOfChar rest c).map (· + 1)

/-- Is `c` an ASCII decimal digit? -/
def isDigitCh (c : Char) : Bool := 48 ≤ c.toNat && c.toNat ≤ 57

/-- Numeric value of a digit character. -/
def digitVal (c : Char) : Nat := c.toNat - 48

/-- Fold a digit string to the number it denotes. -/
def readDigits (s : Str) : Nat := s.foldl (fun a c => a * 10 + digitVal c) 0

/-- Parse a non-empty all-digit string to a natural number: the digits
phase shared by `strconv.Atoi` and `strconv.ParseFloat`. -/
def parseNatDigits (s : Str) : Option Nat :=
  if s ≠ [] ∧ s.all isDigitCh then some (readDigits s) else none

/-- `math.MaxInt64`, the bound `strconv.Atoi` enforces on 64-bit Go. -/
def maxInt64 : Nat := 9223372036854775807

/-- Go `strconv.Atoi`: optional sign, then decimal digits, with the
64-bit range check. -/
def goAtoi (s : Str) : Option Int :=
  match s with
  | [] => none
  | c :: rest =>
    if c = '+' then
      (parseNatDigits rest).bind fun n =>
        if n ≤ maxInt64 then some (n : Int) else none
    else if c = '-' then
      (parseNatDigits rest).bind fun n =>
        if n ≤ maxInt64 + 1 then some (-(n : Int)) else none
    else
      (parseNatDigits (c :: rest)).bind fun n =>
        if n ≤ maxInt64 then some (n : Int) else none

/-- Raw container record decoded from one line of
`docker ps --format json` output (docker.go `DockerContainer`). -/
structure DockerContainer where
  id : Str
  names : Str
  image : Str
  command : Str
  created : Str
  ports : Str
  labels : Str
  state : Str
  status : Str
  mounts : Str
  size : Str
deriving Repr, DecidableEq

/-- One structured port map entry produced by `convertToFrontendFormat`:
the `"->"` branch fills all three fields, the `"80/tcp"` branch leaves
`publicPort` empty. -/
structure PortRec where
  publicPort : Option Int
  privatePort : Int
  protoKind : Str
deriving Repr, DecidableEq

/-- The `"->"` separator in docker port strings. -/
def arrowSep : Str := ['-', '>']

/-- The per-entry port parsing of docker.go `convertToFrontendFormat`
(lines 44-83): entries failing any step produce no record. -/
def parsePortEntry (portPart : Str) : Option PortRec :=
  let portStr := trimSpace portPart
  if goContains portStr arrowSep then
    match goSplit portStr arrowSep with
    | [p0, p1] =>
      let publicPart := trimSpace p0
      let privatePart := trimSpace p1
      match lastIndexOfChar publicPart ':' with
      | some colonIdx =>
        let publicPortStr := publicPart.drop (colonIdx + 1)
        match goAtoi publicPortStr with
        | some publicPort =>
          match indexOfChar privatePart '/' with
          | some slashIdx =>
            let privatePortStr := privatePart.take slashIdx
            let portKind := privatePart.drop (slashIdx + 1)
            match goAtoi privatePortStr with
            | some privatePort => some ⟨some publicPort, privatePort, portKind⟩
            | none => none
          | none => none
        | none => none
      | none => none
    | _ => none
  else if goContains portStr ['/'] then
    match goSplit portStr ['/'] with
    | [p0, p1] =>
      match goAtoi p0 with
      | some privatePort => some ⟨none, privatePort, p1⟩
      | none => none
    | _ => none
  else none

/-- The `Ports` field translation of `convertToFrontendFormat`: split on
`","` and keep the entries that parse. -/
def parsePorts (raw : Str) : List PortRec :=
  if raw = [] then [] else (goSplit raw [',']).filterMap parsePortEntry

/-- The frontend projection of a container built by
`convertToFrontendFormat`. -/
structure FrontendContainer where
  id : Str
  names : List Str
  image : Str
  state : Str
  status : Str
  ports : List PortRec
deriving Repr, DecidableEq

/-- docker.go `convertToFrontendFormat`. -/
def convertToFrontendFormat (raw : DockerContainer) : FrontendContainer :=
  { id := raw.id
    names := if raw.names ≠ [] then [raw.names] else []
    image := raw.image
    state := raw.state
    status := raw.status
    ports := parsePorts raw.ports }

/-- `strconv.ParseFloat` restricted to the plain decimal forms the docker
CLI prints for sizes (optional sign, digits, optional fraction), with the
value represented exactly as a rational; the float64 the Go code computes
coincides with this rational on the exactly-representable range the size
theorems quantify over. -/
def parseUnsignedDec (s : Str) : Option ℚ :=
  match goSplit s ['.'] with
  | [intPart] => (parseNatDigits intPart).map (fun n => (n : ℚ))
  | [intPart, fracPart] =>
    match parseNatDigits intPart, parseNatDigits fracPart with
    | some n, some f => some ((n : ℚ) + (f : ℚ) / (10 : ℚ) ^ fracPart.length)
    | _, _ => none
  | _ => none

/-- Signed wrapper of `parseUnsignedDec`. -/
def parseFloatDec (s : Str) : Option ℚ :=
  match s with
  | [] => none
  | c :: rest =>
    if c = '+' then parseUnsignedDec rest
    else if c = '-' then (parseUnsignedDec rest).map Neg.neg
    else parseUnsignedDec (c :: rest)

/-- Go's `int64(float64)` conversion: truncation toward zero. -/
def ratTruncToInt (q : ℚ) : Int := if q < 0 then -(Int.floor (-q)) else Int.floor q

/-- docker.go `parseDockerSize`: suffix checks in source order (`MB`,
`GB`, `kB`, note binary multipliers), then parse and scale. -/
def parseDockerSize (sizeArg : Str) : Int :=
  let sizeStr := trimSpace sizeArg
  if sizeStr = [] then 0
  else
    let p : Int × Str :=
      if List.isSuffixOf ("MB".data) sizeStr then (1048576, goTrimEnd sizeStr ("MB".data))
      else if List.isSuffixOf ("GB".data) sizeStr then (1073741824, goTrimEnd sizeStr ("GB".data))
      else if List.isSuffixOf ("kB".data) sizeStr then (1024, goTrimEnd sizeStr ("kB".data))
      else (1, sizeStr)
    match parseFloatDec p.2 with
    | some val => ratTruncToInt (val * (p.1 : ℚ))
    | none => 0

/-! ### `time.Parse "2006-01-02 15:04:05 -0700 MST"` -/

/-- Consume exactly `n` decimal digits (the fixed-width numeric fields of
the layout). -/
def takeDigitsN (n : Nat) (s : Str) : Option (Nat × Str) :=
  let pre := s.take n
  if pre.length = n ∧ pre.all isDigitCh then some (readDigits pre, s.drop n) else none

/-- Consume one expected literal character of the layout. -/
def expectChar (c : Char) (s : Str) : Option Str :=
  match s with
  | x :: rest => if x = c then some rest else none
  | [] => none

/-- Uppercase ASCII letter (timezone abbreviations such as `UTC`). -/
def isUpperAlpha (c : Char) : Bool := 65 ≤ c.toNat && c.toNat ≤ 90

/-- time/format.go `leadingInt`: consume leading decimal digits into the
accumulator, with the int64 overflow checks (`none` models the overflow
error). -/
def leadingInt : Str → Nat → Option (Nat × Str)
  | [], x => some (x, [])
  | c :: rest, x =>
    if isDigitCh c = false then some (x, c :: rest)
    else if maxInt64 / 10 < x then none
    else if maxInt64 < x * 10 + digitVal c then none
    else leadingInt rest (x * 10 + digitVal c)

/-- time/format.go `parseSignedOffset`: length of a `+hh`/`-hh` zone
offset at the head of the string (0 on failure, as in the source). -/
def parseSignedOffset (s : Str) : Nat :=
  match s with
  | [] => 0
  | c :: rest =>
    if c = '+' ∨ c = '-' then
      match leadingInt rest 0 with
      | none => 0
      | some (x, rem) =>
        if rem = rest then 0
        else if 23 < x then 0
        else s.length - rem.length
    else 0

/-- time/format.go `parseGMT`: `GMT` optionally followed by a signed hour
offset. -/
def parseGMT (s : Str) : Nat :=
  let v := s.drop 3
  if v = [] then 3 else 3 + parseSignedOffset v

/-- Length of the leading run of uppercase ASCII letters, capped (the
`nUpper < 6` loop bound of `parseTimeZone`). -/
def upperRunCapped : Nat → Str → Nat
  | 0, _ => 0
  | _ + 1, [] => 0
  | cap + 1, c :: rest => if isUpperAlpha c then upperRunCapped cap rest + 1 else 0

/-- time/format.go `parseTimeZone`: the length of the timezone
abbreviation at the head of the string, or `none` when there is none —
`ChST`/`MeST` specials, `GMT` with an optional signed hour offset,
bare signed offsets, then a run of 3 uppercase letters, or of 4-5
uppercase letters ending in `T` (plus the `WITA` special); runs of
0-2 or 6+ uppercase letters are rejected. -/
def parseTimeZone (s : Str) : Option Nat :=
  if s.length < 3 then none
  else if s.take 4 = "ChST".data ∨ s.take 4 = "MeST".data then some 4
  else if s.take 3 = "GMT".data then some (parseGMT s)
  else
    match s with
    | [] => none
    | c :: _ =>
      if c = '+' ∨ c = '-' then
        let l := parseSignedOffset s
        if 0 < l then some l else none
      else
        let nUpper := upperRunCapped 6 s
        if nUpper = 5 then (if s.get? 4 = some 'T' then some 5 else none)
        else if nUpper = 4 then
          (if s.get? 3 = some 'T' ∨ s.take 4 = "WITA".data then some 4 else none)
        else if nUpper = 3 then some 3
        else none

/-- Gregorian leap year rule (as in Go `time`). -/
def isLeapYear (y : Nat) : Bool := (y % 4 = 0 && y % 100 ≠ 0) || y % 400 = 0

/-- Days in a month, as validated by Go `time.Parse`. -/
def daysInMonth (y m : Nat) : Nat :=
  if m = 2 then (if isLeapYear y then 29 else 28)
  else if m = 4 ∨ m = 6 ∨ m = 9 ∨ m = 11 then 30
  else 31

/-- Days between 1970-01-01 and the given civil date (the standard
days-from-civil computation Go's calendar arithmetic realizes). -/
def daysFromCivil (y : Int) (m d : Nat) : Int :=
  let y' : Int := if m ≤ 2 then y - 1 else y
  let era : Int := Int.fdiv y' 400
  let yoe : Nat := (y' - era * 400).toNat
  let mp : Nat := (m + 9) % 12
  let doy : Nat := (153 * mp + 2) / 5 + (d - 1)
  let doe : Nat := yoe * 365 + yoe / 4 - yoe / 100 + doy
  era * 146097 + (doe : Int) - 719468

/-- Unix epoch seconds of a civil datetime taken as UTC. -/
def civilToUnix (y : Int) (m d hh mi ss : Nat) : Int :=
  daysFromCivil y m d * 86400 + (hh : Int) * 3600 + (mi : Int) * 60 + (ss : Int)

/-- Go `time.Parse` specialized to the layout
`"2006-01-02 15:04:05 -0700 MST"` used by `parseDockerTime`, returning
`t.Unix()`: fixed-width fields, range validation, `parseTimeZone` for
the `MST` token (whose abbreviation must consume the whole remainder —
trailing text is the "extra text" error), and the zone offset
subtracted from the wall-clock reading.  The `-0700` offset digits are
accepted unvalidated; the theorems only quantify over real offsets. -/
def parseZoneSign (s : Str) : Option (Int × Str) :=
  match s with
  | c :: rest =>
    if c = '+' then some ((1 : Int), rest)
    else if c = '-' then some ((-1 : Int), rest)
    else none
  | [] => none

/-- Numeric date/time fields read from the layout, before validation. -/
structure TimeFields where
  y : Nat
  m : Nat
  d : Nat
  hh : Nat
  mi : Nat
  ss : Nat
  sgn : Int
  oh : Nat
  om : Nat
  zone : Str
deriving Repr, DecidableEq

/-- Read the `2006-01-02` date fields. -/
def readDatePart (s : Str) : Option (Nat × Nat × Nat × Str) :=
  (takeDigitsN 4 s).bind fun py =>
  (expectChar '-' py.2).bind fun s1 =>
  (takeDigitsN 2 s1).bind fun pm =>
  (expectChar '-' pm.2).bind fun s2 =>
  (takeDigitsN 2 s2).bind fun pd =>
  some (py.1, pm.1, pd.1, pd.2)

/-- Read the `15:04:05` clock fields. -/
def readClockPart (s : Str) : Option (Nat × Nat × Nat × Str) :=
  (takeDigitsN 2 s).bind fun ph =>
  (expectChar ':' ph.2).bind fun s4 =>
  (takeDigitsN 2 s4).bind fun pmi =>
  (expectChar ':' pmi.2).bind fun s5 =>
  (takeDigitsN 2 s5).bind fun pss =>
  some (ph.1, pmi.1, pss.1, pss.2)

/-- Read the `-0700` zone-offset fields. -/
def readZonePart (s : Str) : Option (Int × Nat × Nat × Str) :=
  (parseZoneSign s).bind fun psgn =>
  (takeDigitsN 2 psgn.2).bind fun poh =>
  (takeDigitsN 2 poh.2).bind fun pom =>
  some (psgn.1, poh.1, pom.1, pom.2)

/-- Field-extraction phase of the layout parse. -/
def readLayoutFields (s : Str) : Option TimeFields :=
  (readDatePart s).bind fun pa =>
  (expectChar ' ' pa.2.2.2).bind fun sa =>
  (readClockPart sa).bind fun pb =>
  (expectChar ' ' pb.2.2.2).bind fun sb =>
  (readZonePart sb).bind fun pc =>
  (expectChar ' ' pc.2.2.2).bind fun sc =>
  some ⟨pa.1, pa.2.1, pa.2.2.1, pb.1, pb.2.1, pb.2.2.1, pc.1, pc.2.1, pc.2.2.1, sc⟩

def parseLayoutDockerTime (s : Str) : Option Int :=
  match readLayoutFields s with
  | none => none
  | some f =>
    match parseTimeZone f.zone with
    | none => none
    | some len =>
      if f.zone.drop len = [] then
        if 1 ≤ f.m ∧ f.m ≤ 12 ∧ 1 ≤ f.d ∧ f.d ≤ daysInMonth f.y f.m ∧
            f.hh ≤ 23 ∧ f.mi ≤ 59 ∧ f.ss ≤ 59 then
          some (civilToUnix (f.y : Int) f.m f.d f.hh f.mi f.ss -
            f.sgn * ((f.oh : Int) * 3600 + (f.om : Int) * 60))
        else none
      else none

/-- docker.go `parseDockerTime`: parse the docker layout, falling back to
`time.Now().Unix()` (passed in as `now`) when parsing fails. -/
def parseDockerTime (now : Int) (timeStr : Str) : Int :=
  match parseLayoutDockerTime timeStr with
  | some u => u
  | none => now

/-! ## docker.go : line-delimited list operations -/

/-- `bufio.Scanner` with `ScanLines`: split on `'\n'`, drop the trailing
empty token a final newline produces, strip one trailing `'\r'` per
line. -/
def scanLines (output : Str) : List Str :=
  let ls := goSplit output ['\n']
  let ls := if ls.getLast? = some [] then ls.dropLast else ls
  ls.map (fun l => goTrimEnd l ['\r'])

/-- docker.go `getRealContainers`, split at the subprocess boundary: the
`docker ps` result is passed in, JSON decoding of one line is the
parameter `decode` (`none` models a `json.Unmarshal` error, which the Go
code logs and skips). -/
def getRealContainers (decode : Str → Option DockerContainer)
    (cmdResult : Except String Str) : Except String (List FrontendContainer) :=
  match cmdResult with
  | .error e => .error e
  | .ok output =>
    .ok ((scanLines output).filterMap fun line =>
      if line = [] then none
      else
        match decode line with
        | none => none
        | some c => some (convertToFrontendFormat c))

/-- Raw image record decoded from one `docker images --format json`
line (docker.go `DockerImage`). -/
structure DockerImage where
  id : Str
  repository : Str
  tag : Str
  created : Str
  size : Str
deriving Repr, DecidableEq

/-- Frontend image shape built by `getRealImages`. -/
structure FrontendImage where
  id : Str
  repoTags : List Str
  created : Int
  size : Int
deriving Repr, DecidableEq

/-- The per-image translation inside `getRealImages`. -/
def imageToFrontend (now : Int) (image : DockerImage) : FrontendImage :=
  let repoTag :=
    if image.tag = "<none>".data then ("<none>:<none>".data)
    else image.repository ++ ':' :: image.tag
  { id := image.id
    repoTags := [repoTag]
    created := parseDockerTime now image.created
    size := parseDockerSize image.size }

/-- docker.go `getRealImages` downstream of the subprocess call. -/
def getRealImages (decode : Str → Option DockerImage) (now : Int)
    (cmdResult : Except String Str) : Except String (List FrontendImage) :=
  match cmdResult with
  | .error e => .error e
  | .ok output =>
    .ok ((scanLines output).filterMap fun line =>
      if line = [] then none
      else
        match decode line with
        | none => none
        | some image => some (imageToFrontend now image))

/-- Raw volume record from one `docker volume ls --format json` line
(docker.go `DockerVolume`). -/
structure DockerVolume where
  driver : Str
  name : Str
  size : Str
  createdAt : Str
deriving Repr, DecidableEq

/-- Frontend volume shape built by docker.go `getRealVolumes` (fixed
mountpoint prefix, constant scope/labels/options). -/
structure FrontendVolume where
  name : Str
  driver : Str
  mountpoint : Str
  createdAt : Str
  scope : Str
deriving Repr, DecidableEq

/-- docker.go `getRealVolumes` downstream of the subprocess call. -/
def getRealVolumes (decode : Str → Option DockerVolume)
    (cmdResult : Except String Str) : Except String (List FrontendVolume) :=
  match cmdResult with
  | .error e => .error e
  | .ok output =>
    .ok ((scanLines output).filterMap fun line =>
      if line = [] then none
      else
        match decode line with
        | none => none
        | some v =>
          some { name := v.name
                 driver := v.driver
                 mountpoint := "/var/lib/docker/volumes/".data ++ v.name ++ "/_data".data
                 createdAt := v.createdAt
                 scope := "local".data })

/-- Raw network record from one `docker network ls --format json` line
(docker.go `DockerNetwork`). -/
structure DockerNetwork where
  id : Str
  name : Str
  driver : Str
  scope : Str
  created : Str
deriving Repr, DecidableEq

/-- Frontend network shape built by `getRealNetworks` (the remaining
fields of the Go map are constants). -/
structure FrontendNetwork where
  id : Str
  name : Str
  created : Str
  scope : Str
  driver : Str
deriving Repr, DecidableEq

/-- docker.go `getRealNetworks` downstream of the subprocess call. -/
def getRealNetworks (decode : Str → Option DockerNetwork)
    (cmdResult : Except String Str) : Except String (List FrontendNetwork) :=
  match cmdResult with
  | .error e => .error e
  | .ok output =>
    .ok ((scanLines output).filterMap fun line =>
      if line = [] then none
      else
        match decode line with
        | none => none
        | some n => some ⟨n.id, n.name, n.created, n.scope, n.driver⟩)

/-- The fields the volume-service list handler reads out of the decoded
untyped JSON map of one `docker volume ls` line. -/
structure VolumeFieldsVS where
  name : Str
  driver : Str
  mountpoint : Str
  scope : Str
  labels : Str
deriving Repr, DecidableEq

/-- The volume-service variant of `getRealVolumes` (part_014 lines
71-106): splits `strings.TrimSpace(output)` on `'\n'`, trims each line,
skips empty and undecodable lines, and re-keys the decoded fields. -/
def getRealVolumesVS (decode : Str → Option VolumeFieldsVS)
    (cmdResult : Except String Str) : Except String (List VolumeFieldsVS) :=
  match cmdResult with
  | .error e => .error e
  | .ok output =>
    .ok ((goSplit (trimSpace output) ['\n']).filterMap fun line0 =>
      let line := trimSpace line0
      if line = [] then none
      else
        match decode line with
        | none => none
        | some v => some v)

/-! ## auth-service : credential store (part_011 `FileStorage`) -/

/-- A credential record as persisted by the file storage. -/
structure User where
  id : Nat
  username : String
  passwordHash : String
  role : String
  createdAt : Int
  updatedAt : Int
deriving Repr, DecidableEq

/-- `FileStorage.GetUser`: first record matching the username, or the
`"user not found"` error. -/
def GetUser (users : List User) (username : String) : Except String User :=
  match users.find? (fun u => u.username == username) with
  | some u => .ok u
  | none => .error ("user not found")

/-- `FileStorage.CreateUser`: reject when any record already carries the
username, else append a fresh record (id `len+1`, both timestamps set to
the creation instant).  Errors leave the stored list untouched. -/
def CreateUser (users : List User) (username passwordHash role : String)
    (now : Int) : Except String (List User) :=
  if users.any (fun u => u.username == username) then .error ("user already exists")
  else .ok (users ++ [⟨users.length + 1, username, passwordHash, role, now, now⟩])

/-- `FileStorage.UpdateUserPassword`: replace the hash and bump
`updatedAt` on the first record matching the username. -/
def UpdateUserPassword : List User → String → String → Int → Except String (List User)
  | [], _, _, _ => .error ("user not found")
  | u :: rest, username, newHash, now =>
    if u.username == username then
      .ok ({ u with passwordHash := newHash, updatedAt := now } :: rest)
    else
      (UpdateUserPassword rest username newHash now).map (u :: ·)

/-! ## auth-service : JWT issue/validate (auth.go) -/

/-- The claims `generateToken` signs (`jwt.RegisteredClaims` parts the
code sets). -/
structure JwtClaims where
  username : String
  role : String
  exp : Int
  iat : Int
  iss : String
deriving Repr, DecidableEq

/-- Symbolic signature: an HMAC tag is the (key, header-alg, claims)
triple it was computed over — two tags agree exactly when key and signed
content agree; anything else (RSA signatures, garbage bytes) is
`other`. -/
inductive JwtSig where
  | hmacTag (key : String) (alg : String) (claims : JwtClaims)
  | other (data : String)
deriving Repr, DecidableEq

/-- A decoded token: header algorithm, payload claims, signature. -/
structure JwtToken where
  alg : String
  claims : JwtClaims
  sig : JwtSig
deriving Repr, DecidableEq

/-- Does the header algorithm name a `jwt.SigningMethodHMAC` instance? -/
def isHMACAlg (alg : String) : Bool :=
  alg == "HS256" || alg == "HS384" || alg == "HS512"

/-- The failure cases of `jwt.ParseWithClaims` the code can hit. -/
inductive JwtError where
  | malformed
  | unexpectedSigningMethod
  | signatureInvalid
  | tokenExpired
deriving Repr, DecidableEq

/-- auth.go `generateToken`: 24-hour expiry from issuance, issuer
`dockmaster`, HS256 over the process secret; also returns
`expirationTime.Unix()`. -/
def generateToken (secret : String) (now : Int) (user : User) : JwtToken × Int :=
  let exp := now + 24 * 3600
  let claims : JwtClaims := ⟨user.username, user.role, exp, now, "dockmaster"⟩
  (⟨"HS256", claims, .hmacTag secret ("HS256") claims⟩, exp)

/-- auth.go `validateToken` on a decoded token: the keyfunc rejects any
non-HMAC signing method, then `jwt.ParseWithClaims` verifies the
signature against the secret and validates expiry (valid strictly before
`exp`, as `jwt/v5` checks `now.Before(exp)` with zero leeway). -/
def validateToken (secret : String) (now : Int) (t : JwtToken) :
    Except JwtError JwtClaims :=
  if isHMACAlg t.alg = false then .error .unexpectedSigningMethod
  else if t.sig ≠ JwtSig.hmacTag secret t.alg t.claims then .error .signatureInvalid
  else if now < t.claims.exp then .ok t.claims
  else .error .tokenExpired

/-- `validateToken` on a wire string: `decode` is the JWT compact-format
decoding boundary of `jwt.ParseWithClaims` (`none` models a string that
is not a decodable token). -/
def validateTokenStr (decode : Str → Option JwtToken) (secret : String)
    (now : Int) (s : Str) : Except JwtError JwtClaims :=
  match decode s with
  | none => .error .malformed
  | some t => validateToken secret now t

/-! ## auth-service : HTTP handlers (auth.go) -/

/-- part_016 `LocalImageResult`. -/
structure LocalImageResult where
  id : Str
  repoTags : List Str
  size : Int
  created : Int
deriving Repr, DecidableEq

/-- part_016 `HubImageResult`. -/
structure HubImageResult where
  name : Str
  description : Str
  stars : Int
  official : Bool
  automated : Bool
deriving Repr, DecidableEq

/-- Response bodies the modelled handlers write. -/
inductive Body where
  | text (s : String)
  | login (token : JwtToken) (expiresAt : Int) (username role : String)
  | search (locals : List LocalImageResult) (hub : List HubImageResult)
deriving Repr, DecidableEq

/-- An HTTP response: status code plus body. -/
structure HttpResponse where
  status : Nat
  body : Body
deriving Repr, DecidableEq

/-- A `Storage.LogEntry` call (level, message, key/value data). -/
structure LogLine where
  level : String
  message : String
  data : List (String × String)
deriving Repr, DecidableEq

/-- What `authMiddleware` does with a request: reject it with a status
and message (the wrapped handler is never invoked, no resource data is
produced), or invoke the wrapped handler with the identity headers set. -/
inductive AuthOutcome where
  | rejected (status : Nat) (msg : String)
  | passed (username role : String)
deriving Repr, DecidableEq

/-- auth.go `authMiddleware`: empty header, header without the
`Bearer `-prefix, and token-validation failure are each rejected with
401; otherwise the wrapped handler runs with `X-User`/`X-Role` set. -/
def authMiddleware (decode : Str → Option JwtToken) (secret : String)
    (now : Int) (authHeader : Str) : AuthOutcome :=
  if authHeader = [] then .rejected 401 ("Authorization header required")
  else
    let tokenString := goTrimStart authHeader ("Bearer ".data)
    if tokenString = authHeader then .rejected 401 ("Bearer token required")
    else
      match validateTokenStr decode secret now tokenString with
      | .error _ => .rejected 401 ("Invalid token")
      | .ok claims => .passed claims.username claims.role

/-- auth.go `authenticateUser`: look up the stored record, then run the
bcrypt comparison; `verify hash password` stands for
`bcrypt.CompareHashAndPassword(hash, password) == nil`. -/
def authenticateUser (verify : String → String → Bool) (users : List User)
    (username password : String) : Except String User :=
  match GetUser users username with
  | .error _ => .error ("user not found")
  | .ok user =>
    if verify user.passwordHash password then .ok user
    else .error ("invalid password")

/-- Decoded body of `POST /auth/login`. -/
structure LoginRequest where
  username : String
  password : String
deriving Repr, DecidableEq

/-- auth.go `loginHandler`: malformed body is 400; an authentication
failure of either kind logs the distinguishing error but answers with
the one constant `401 Invalid credentials`; success issues a token. -/
def loginHandler (verify : String → String → Bool) (users : List User)
    (secret : String) (now : Int) (body : Option LoginRequest) :
    HttpResponse × List LogLine :=
  match body with
  | none => (⟨400, .text ("Invalid request body")⟩, [])
  | some req =>
    match authenticateUser verify users req.username req.password with
    | .error e =>
      (⟨401, .text ("Invalid credentials")⟩,
       [⟨"warn", "Failed login attempt", [("username", req.username), ("error", e)]⟩])
    | .ok user =>
      let issued := generateToken secret now user
      (⟨200, .login issued.1 issued.2 user.username user.role⟩,
       [⟨"info", "User logged in successfully", [("username", user.username)]⟩])

/-- Decoded body of `POST /auth/change-password`. -/
structure ChangePasswordRequest where
  currentPassword : String
  newPassword : String
deriving Repr, DecidableEq

/-- auth.go `changePasswordHandler`: re-authenticate with the current
password, hash the new one (`hashF` stands for
`bcrypt.GenerateFromPassword`), persist via `UpdateUserPassword`.
Returns the response and the resulting stored list. -/
def changePasswordHandler (verify : String → String → Bool)
    (hashF : String → String) (users : List User) (now : Int)
    (username : String) (body : Option ChangePasswordRequest) :
    HttpResponse × List User :=
  match body with
  | none => (⟨400, .text ("Invalid request body")⟩, users)
  | some req =>
    match GetUser users username with
    | .error _ => (⟨404, .text ("User not found")⟩, users)
    | .ok user =>
      if verify user.passwordHash req.currentPassword = false then
        (⟨400, .text ("Current password is incorrect")⟩, users)
      else
        match UpdateUserPassword users username (hashF req.newPassword) now with
        | .error _ => (⟨500, .text ("Failed to update password")⟩, users)
        | .ok users' => (⟨200, .text ("Password changed successfully")⟩, users')

/-- auth.go `initAuth` bootstrap: when no record exists for the
configured admin username, create one from the configured password;
otherwise leave the store alone.  A `CreateUser` failure is
`logrus.Fatal` in the source, i.e. the error case of the result. -/
def initAuth (hashF : String → String) (users : List User)
    (adminUsername adminPassword : String) (now : Int) :
    Except String (List User) :=
  match GetUser users adminUsername with
  | .ok _ => .ok users
  | .error _ => CreateUser users adminUsername (hashF adminPassword) "admin" now

/-! ## docker-service : image search (part_015 / part_016) -/

/-- A value in an untyped decoded JSON object (`map[string]interface{}`):
JSON numbers decode to Go `float64`, modelled exactly as rationals. -/
inductive JVal where
  | str (s : Str)
  | num (q : ℚ)
  | bool (b : Bool)
  | other
deriving Repr, DecidableEq

/-- A decoded JSON object. -/
abbrev JObj := List (String × JVal)

/-- Map lookup `data[key]`. -/
def jLookup (data : JObj) (key : String) : Option JVal :=
  (data.find? (fun p => p.1 == key)).map (·.2)

/-- docker.go `getStringValue`. -/
def getStringValue (data : JObj) (key : String) : Str :=
  match jLookup data key with
  | some (.str s) => s
  | _ => []

/-- docker.go `getIntValue`: numbers truncate (`int(v)` on the decoded
float64), strings go through `strconv.Atoi`, everything else is 0. -/
def getIntValue (data : JObj) (key : String) : Int :=
  match jLookup data key with
  | some (.num q) => ratTruncToInt q
  | some (.str s) =>
    match goAtoi s with
    | some i => i
    | none => 0
  | _ => 0

/-- part_015 `getBoolValue`. -/
def getBoolValue (data : JObj) (key : String) : Bool :=
  match jLookup data key with
  | some (.bool b) => b
  | some (.str s) => s.map Char.toLower == "true".data
  | _ => false

/-- Case folding used by `strings.ToLower` on the ASCII repo:tag and
query strings the search compares. -/
def toLowerStr (s : Str) : Str := s.map Char.toLower

/-- part_015 `searchLocalImages`: list local images (the passed-in result
of `getRealImages`) and keep those with a repo:tag containing the
lowercased query; the inner loop appends one result per image and
breaks. -/
def searchLocalImages (imagesResult : Except String (List FrontendImage))
    (query : Str) : Except String (List LocalImageResult) :=
  match imagesResult with
  | .error e => .error e
  | .ok images =>
    let q := toLowerStr query
    .ok (images.filterMap fun img =>
      if img.repoTags.any (fun tag => goContains (toLowerStr tag) q) then
        some ⟨img.id, img.repoTags, img.size, img.created⟩
      else none)

/-- part_015 `searchDockerHub` downstream of the `docker search`
subprocess call: scan lines, skip empty or undecodable ones, and project
each decoded object through the `get*Value` helpers. -/
def searchDockerHub (decode : Str → Option JObj)
    (cmdResult : Except String Str) : Except String (List HubImageResult) :=
  match cmdResult with
  | .error e => .error e
  | .ok output =>
    .ok ((scanLines output).filterMap fun line =>
      if line = [] then none
      else
        match decode line with
        | none => none
        | some rawResult =>
          some ⟨getStringValue rawResult ("Name"),
                getStringValue rawResult ("Description"),
                getIntValue rawResult ("StarCount"),
                getBoolValue rawResult ("IsOfficial"),
                getBoolValue rawResult ("IsAutomated")⟩)

/-- part_016 `searchImages` handler: an empty query is 400; otherwise
both sources are consulted, a failing source is logged and contributes
the nil slice, and the response is always 200 with both keys. -/
def searchImages (imagesResult : Except String (List FrontendImage))
    (hubDecode : Str → Option JObj) (hubCmdResult : Except String Str)
    (query : Str) : HttpResponse :=
  if query = [] then ⟨400, .text ("Query parameter q is required")⟩
  else
    let localImages :=
      match searchLocalImages imagesResult query with
      | .ok r => r
      | .error _ => []
    let hubImages :=
      match searchDockerHub hubDecode hubCmdResult with
      | .ok r => r
      | .error _ => []
    ⟨200, .search localImages hubImages⟩

/-! ## volume deletion (volume-service part_014 vs docker-service part_016) -/

/-- The runtime state the volume handlers consult: existing volume names
and the (container id, mounted volume name) references `docker ps -a
--filter volume=...` reports. -/
structure DockerHost where
  volumes : List String
  containerRefs : List (String × String)
deriving Repr, DecidableEq

/-- Subprocess invocations a handler issues. -/
inductive Cmd where
  | psFilterVolume (volume : String)
  | volumeRm (force : Bool) (volume : String)
deriving Repr, DecidableEq

/-- Output of `docker ps -a --filter volume=name --format {{.ID}}`: the
matching container ids, one per line. -/
def psFilterOutput (host : DockerHost) (name : String) : Str :=
  List.intercalate ['\n']
    (((host.containerRefs.filter (fun p => p.2 == name)).map (fun p => p.1.data)))

/-- part_014 `isVolumeInUse`: the volume is in use when the trimmed
filter output is non-empty. -/
def isVolumeInUse (host : DockerHost) (name : String) : Bool :=
  trimSpace (psFilterOutput host name) ≠ []

/-- Effect of a successful `docker volume rm` on the host. -/
def removeVol (host : DockerHost) (name : String) : DockerHost :=
  { host with volumes := host.volumes.filter (fun v => ¬(v == name)) }

/-- part_014 `deleteVolume` (volume-service): without the force flag,
run the in-use pre-check and answer 409 without invoking removal when it
hits; otherwise invoke `docker volume rm` (`-f` exactly when forced,
whose exit status is the external `rmOk`).  Returns the response, the
resulting host state, and the commands invoked in order. -/
def deleteVolumeVS (host : DockerHost) (rmOk : Bool) (name : String)
    (force : Bool) : HttpResponse × DockerHost × List Cmd :=
  if force = false ∧ isVolumeInUse host name then
    (⟨409, .text ("Volume is currently in use by one or more containers. Use force=true to delete anyway.")⟩,
     host, [.psFilterVolume name])
  else
    let pre : List Cmd := if force = false then [.psFilterVolume name] else []
    if rmOk then
      (⟨200, .text ("Volume deleted successfully")⟩, removeVol host name,
       pre ++ [.volumeRm force name])
    else
      (⟨500, .text ("Failed to delete volume")⟩, host, pre ++ [.volumeRm force name])

/-- part_016 `deleteVolume` (docker-service, lines 365-379): no pre-check
of any kind — `docker volume rm` is invoked directly, with `-f` exactly
when the force query flag is set. -/
def deleteVolumeDS (host : DockerHost) (rmOk : Bool) (name : String)
    (force : Bool) : HttpResponse × DockerHost × List Cmd :=
  if rmOk then
    (⟨200, .text ("Volume deleted successfully")⟩, removeVol host name,
     [.volumeRm force name])
  else
    (⟨500, .text ("Failed to delete volume")⟩, host, [.volumeRm force name])

/-! ## Formatting helpers used to state the normalization theorems -/

/-- Characters allowed in the host and protocol fragments of a docker
port string: printable, not a list separator, not part of the arrow. -/
def portCharOk (c : Char) : Prop := goIsSpace c = false ∧ c ≠ ',' ∧ c ≠ '>'

instance portCharOkDecidable (c : Char) : Decidable (portCharOk c) :=
  inferInstanceAs (Decidable (goIsSpace c = false ∧ c ≠ ',' ∧ c ≠ '>'))

/-! ## Concrete sample values used by the witness theorems -/

/-- A toy stand-in for `bcrypt.GenerateFromPassword`, used only to
instantiate the bcrypt parameter at concrete witness inputs. -/
def sampleHash (p : String) : String := "#" ++ p

/-- The matching stand-in for `bcrypt.CompareHashAndPassword`. -/
def sampleVerify (hash p : String) : Bool := hash == "#" ++ p

/-- A bootstrap admin record as `initAuth` would create it. -/
def sampleUser : User :=
  { id := 1, username := "admin", passwordHash := "#admin123", role := "admin"
    createdAt := 0, updatedAt := 0 }

/-- A signing secret for witness instantiations. -/
def sampleSecret : String := "jwt-secret"

/-- Claims payload for witness instantiations. -/
def sampleClaims : JwtClaims :=
  { username := "admin", role := "admin", exp := 86400, iat := 0, iss := "dockmaster" }

/-- A runtime state with one volume mounted by one (stopped or running)
container. -/
def sampleHost : DockerHost :=
  { volumes := ["data"], containerRefs := [("abc123", "data")] }

theorem validateToken_generateToken (secret : String) (issuedAt now : Int) (u : User) :
    validateToken secret now (generateToken secret issuedAt u).1 =
      if now < issuedAt + 24 * 3600 then
        .ok ⟨u.username, u.role, issuedAt + 24 * 3600, issuedAt, "dockmaster"⟩
      else .error .tokenExpired := by
  rw [generateToken, validateToken]
  simp only
  rw [if_neg (by decide), if_neg (by simp)]

/-! ## Helper lemmas: the credential store -/

theorem GetUser_cons_self {u : User} {rest : List User} {username : String}
    (h : (u.username == username) = true) : GetUser (u :: rest) username = .ok u := by
  rw [GetUser, List.find?_cons]
  simp [h]

theorem GetUser_cons_ne {u : User} {rest : List User} {username : String}
    (h : (u.username == username) = false) :
    GetUser (u :: rest) username = GetUser rest username := by
  rw [GetUser, GetUser, List.find?_cons]
  simp [h]

theorem GetUser_nil (username : String) : GetUser [] username = .error ("user not found") := rfl

theorem UpdateUserPassword_of_getUser {users : List User} {username : String}
    {r : User} (hget : GetUser users username = .ok r) (newHash : String) (now : Int) :
    ∃ users', UpdateUserPassword users username newHash now = .ok users' ∧
      GetUser users' username =
        .ok { r with passwordHash := newHash, updatedAt := now } := by
  induction users with
  | nil => rw [GetUser_nil] at hget; exact absurd hget (by simp)
  | cons u rest ih =>
    by_cases hu : (u.username == username) = true
    · rw [GetUser_cons_self hu] at hget
      obtain rfl : r = u := by simpa using hget.symm
      refine ⟨{ r with passwordHash := newHash, updatedAt := now } :: rest, ?_, ?_⟩
      · rw [UpdateUserPassword, if_pos hu]
      · exact GetUser_cons_self (by simpa using hu)
    · have hu' : (u.username == username) = false := by simpa using hu
      rw [GetUser_cons_ne hu'] at hget
      obtain ⟨users', h1, h2⟩ := ih hget
      refine ⟨u :: users', ?_, ?_⟩
      · rw [UpdateUserPassword, if_neg (by simp [hu']), h1]
        rfl
      · rw [GetUser_cons_ne hu']
        exact h2

theorem authenticateUser_fail {verify : String → String → Bool} {users : List User}
    {username password : String}
    (h : (∀ u, GetUser users username ≠ .ok u) ∨
      (∃ u, GetUser users username = .ok u ∧ verify u.passwordHash password = false)) :
    ∃ e, authenticateUser verify users username password = .error e := by
  rcases h with h | ⟨u, hu, hv⟩
  · cases hg : GetUser users username with
    | ok u => exact absurd hg (h u)
    | error e => exact ⟨"user not found", by rw [authenticateUser, hg]⟩
  · refine ⟨"invalid password", ?_⟩
    rw [authenticateUser, hu]
    simp [hv]

theorem loginHandler_fail {verify : String → String → Bool} {users : List User}
    {req : LoginRequest} (secret : String) (now : Int)
    (h : ∃ e, authenticateUser verify users req.username req.password = .error e) :
    (loginHandler verify users secret now (some req)).1 =
      ⟨401, .text ("Invalid credentials")⟩ := by
  obtain ⟨e, he⟩ := h
  rw [loginHandler, he]

theorem filterMap_guard_eq_filter_map {α β : Type} (p : α → Bool) (f : α → β)
    (l : List α) :
    l.filterMap (fun x => if p x then some (f x) else none) = (l.filter p).map f := by
  induction l with
  | nil => rfl
  | cons a l ih =>
    by_cases h : p a = true <;>
      simp [List.filterMap_cons, List.filter_cons, h, ih]

/-! ## Claim theorems -/

/-- C2: `generateToken` stamps `expiresAt` 24 hours after issuance; the
resulting token validates under the same secret exactly when the current
time is strictly before `expiresAt`, and once `expiresAt` has passed,
`validateToken` fails with the expiry error. -/
theorem claim_C2_token_roundtrip (secret : String) (issuedAt now : Int) (u : User) :
    (generateToken secret issuedAt u).2 = issuedAt + 24 * 3600 ∧
    (validateToken secret now (generateToken secret issuedAt u).1 =
        .ok ⟨u.username, u.role, issuedAt + 24 * 3600, issuedAt, "dockmaster"⟩ ↔
      now < issuedAt + 24 * 3600) ∧
    (issuedAt + 24 * 3600 ≤ now →
      validateToken secret now (generateToken secret issuedAt u).1 =
        .error .tokenExpired) := by
  rw [validateToken_generateToken]
  refine ⟨rfl, ?_, ?_⟩
  · split_ifs with h
    · simp only [eq_self_iff_true, true_iff]
      omega
    · simp only [reduceCtorEq, false_iff, not_lt]
      omega
  · intro hle
    rw [if_neg (by omega)]

/-- Witness for C2 at a concrete user, secret and clock. -/
theorem claim_C2_witness :
    validateToken sampleSecret 100 (generateToken sampleSecret 0 sampleUser).1 =
      .ok ⟨sampleUser.username, sampleUser.role, 0 + 24 * 3600, 0, "dockmaster"⟩ ∧
    validateToken sampleSecret 90000 (generateToken sampleSecret 0 sampleUser).1 =
      .error .tokenExpired := by
  constructor
  · exact (claim_C2_token_roundtrip sampleSecret 0 100 sampleUser).2.1.mpr (by norm_num)
  · exact (claim_C2_token_roundtrip sampleSecret 0 90000 sampleUser).2.2 (by norm_num)

/-- C10: the keyfunc inside `validateToken` rejects every token whose
header algorithm is not an HMAC variant (for example RS256 or none), so
such a token yields an error and never yields claims, whatever its
payload, signature, or the clock. -/
theorem claim_C10_non_hmac_rejected (secret : String) (now : Int) (t : JwtToken)
    (h : isHMACAlg t.alg = false) :
    validateToken secret now t = .error .unexpectedSigningMethod ∧
    ∀ claims, validateToken secret now t ≠ .ok claims := by
  rw [validateToken, if_pos h]
  exact ⟨rfl, fun claims => by simp⟩

/-- Witness for C10 at a concrete RS256-headed token. -/
theorem claim_C10_witness :
    isHMACAlg ("RS256") = false ∧
    validateToken sampleSecret 0 ⟨"RS256", sampleClaims, .other ("sig-bytes")⟩ =
      .error .unexpectedSigningMethod :=
  ⟨by decide,
   (claim_C10_non_hmac_rejected sampleSecret 0
     ⟨"RS256", sampleClaims, .other ("sig-bytes")⟩ (by decide)).1⟩

/-- C6: whenever the Authorization header is missing, lacks the Bearer
prefix, or carries a token that does not validate, `authMiddleware`
answers 401 and the wrapped handler is never invoked. -/
theorem claim_C6_middleware_rejects (decode : Str → Option JwtToken)
    (secret : String) (now : Int) (authHeader : Str)
    (h : ∀ t : Str, authHeader = "Bearer ".data ++ t →
      ∀ claims, validateTokenStr decode secret now t ≠ .ok claims) :
    (∃ msg, authMiddleware decode secret now authHeader = .rejected 401 msg) ∧
    ∀ username role, authMiddleware decode secret now authHeader ≠ .passed username role := by
  have hmain : ∃ msg, authMiddleware decode secret now authHeader = .rejected 401 msg := by
    by_cases h0 : authHeader = []
    · exact ⟨_, by rw [authMiddleware, if_pos h0]⟩
    · by_cases hpre : ("Bearer ".data).isPrefixOf authHeader = true
      · obtain ⟨t, ht⟩ := List.isPrefixOf_iff_prefix.mp hpre
        have hdrop : goTrimStart authHeader ("Bearer ".data) = t := by
          rw [goTrimStart, if_pos hpre, ← ht, List.drop_left]
        have hne : t ≠ authHeader := by
          intro he
          have hlen := congrArg List.length ht
          rw [List.length_append, he] at hlen
          simp at hlen
        cases hv : validateTokenStr decode secret now t with
        | ok claims => exact absurd hv (by simpa using h t ht.symm claims)
        | error e =>
          refine ⟨"Invalid token", ?_⟩
          rw [authMiddleware, if_neg h0]
          simp only [hdrop]
          rw [if_neg hne, hv]
      · refine ⟨"Bearer token required", ?_⟩
        have heq : goTrimStart authHeader ("Bearer ".data) = authHeader := by
          rw [goTrimStart, if_neg (by simp [hpre])]
        rw [authMiddleware, if_neg h0]
        simp [heq]
  refine ⟨hmain, fun username role hpass => ?_⟩
  obtain ⟨msg, hmsg⟩ := hmain
  rw [hpass] at hmsg
  exact absurd hmsg (by simp)

/-- Witness for C6: a request with a non-Bearer Authorization header is
rejected with 401. -/
theorem claim_C6_witness :
    ∃ msg, authMiddleware (fun _ => none) sampleSecret 0 ("Basic xyz".data) =
      .rejected 401 msg :=
  (claim_C6_middleware_rejects (fun _ => none) sampleSecret 0 ("Basic xyz".data)
    (fun t ht => by simp at ht)).1

/-- C3: a login whose username matches a stored record and whose
password verifies succeeds with 200; any login failing either because
the username is absent or because the comparison fails produces the one
constant `401 Invalid credentials` response, so two failing runs of
either kind are indistinguishable from the response alone. -/
theorem claim_C3_login_indistinguishable (verify : String → String → Bool)
    (users : List User) (secret : String) (now : Int) :
    (∀ (req : LoginRequest) (u : User), GetUser users req.username = .ok u →
       verify u.passwordHash req.password = true →
       authenticateUser verify users req.username req.password = .ok u ∧
       (loginHandler verify users secret now (some req)).1.status = 200) ∧
    (∀ (verifyB : String → String → Bool) (usersB : List User) (secretB : String)
       (nowB : Int) (reqA reqB : LoginRequest),
       ((∀ u, GetUser users reqA.username ≠ .ok u) ∨
         (∃ u, GetUser users reqA.username = .ok u ∧
           verify u.passwordHash reqA.password = false)) →
       ((∀ u, GetUser usersB reqB.username ≠ .ok u) ∨
         (∃ u, GetUser usersB reqB.username = .ok u ∧
           verifyB u.passwordHash reqB.password = false)) →
       (loginHandler verify users secret now (some reqA)).1 =
           ⟨401, .text ("Invalid credentials")⟩ ∧
       (loginHandler verify users secret now (some reqA)).1 =
         (loginHandler verifyB usersB secretB nowB (some reqB)).1) := by
  constructor
  · intro req u hget hverify
    have hauth : authenticateUser verify users req.username req.password = .ok u := by
      rw [authenticateUser, hget]
      simp [hverify]
    refine ⟨hauth, ?_⟩
    rw [loginHandler, hauth]
  · intro verifyB usersB secretB nowB reqA reqB hA hB
    have h1 := loginHandler_fail secret now (authenticateUser_fail hA)
    have h2 := loginHandler_fail secretB nowB (authenticateUser_fail hB)
    exact ⟨h1, by rw [h1, h2]⟩

/-- Witness for C3: a correct login against the bootstrapped store
succeeds; a wrong-password run and an unknown-user run produce equal
responses. -/
theorem claim_C3_witness :
    (loginHandler sampleVerify [sampleUser] sampleSecret 0
        (some ⟨"admin", "admin123"⟩)).1.status = 200 ∧
    (loginHandler sampleVerify [sampleUser] sampleSecret 0
        (some ⟨"admin", "wrongpw"⟩)).1 =
      (loginHandler sampleVerify [] sampleSecret 99 (some ⟨"ghost", "pw"⟩)).1 := by
  constructor
  · exact ((claim_C3_login_indistinguishable sampleVerify [sampleUser] sampleSecret 0).1
      ⟨"admin", "admin123"⟩ sampleUser (by rfl) (by decide)).2
  · exact ((claim_C3_login_indistinguishable sampleVerify [sampleUser] sampleSecret 0).2
      sampleVerify [] sampleSecret 99 ⟨"admin", "wrongpw"⟩ ⟨"ghost", "pw"⟩
      (Or.inr ⟨sampleUser, by rfl, by decide⟩)
      (Or.inl fun u h => by rw [GetUser_nil] at h; exact absurd h (by simp))).2

/-- C5: a successful password change answers 200, stores the new hash
with a bumped `updatedAt`, and afterwards authentication succeeds with
the new password and fails with the old one. -/
theorem claim_C5_change_password_roundtrip (verify : String → String → Bool)
    (hashF : String → String) (users : List User) (now : Int)
    (username old new : String) (r : User)
    (hget : GetUser users username = .ok r)
    (hold : verify r.passwordHash old = true)
    (hnew : verify (hashF new) new = true)
    (hdiff : verify (hashF new) old = false) :
    (changePasswordHandler verify hashF users now username (some ⟨old, new⟩)).1.status
        = 200 ∧
    GetUser (changePasswordHandler verify hashF users now username
        (some ⟨old, new⟩)).2 username =
      .ok { r with passwordHash := hashF new, updatedAt := now } ∧
    authenticateUser verify (changePasswordHandler verify hashF users now username
        (some ⟨old, new⟩)).2 username new =
      .ok { r with passwordHash := hashF new, updatedAt := now } ∧
    authenticateUser verify (changePasswordHandler verify hashF users now username
        (some ⟨old, new⟩)).2 username old = .error ("invalid password") := by
  obtain ⟨users', h1, h2⟩ := UpdateUserPassword_of_getUser hget (hashF new) now
  have hrun : changePasswordHandler verify hashF users now username (some ⟨old, new⟩) =
      (⟨200, .text ("Password changed successfully")⟩, users') := by
    rw [changePasswordHandler, hget]
    simp only
    rw [if_neg (by simp [hold]), h1]
  rw [hrun]
  refine ⟨rfl, h2, ?_, ?_⟩
  · rw [authenticateUser, h2]
    simp [hnew]
  · rw [authenticateUser, h2]
    simp [hdiff]

/-- Witness for C5 on the bootstrapped store with toy bcrypt. -/
theorem claim_C5_witness :
    (changePasswordHandler sampleVerify sampleHash [sampleUser] 5 ("admin")
        (some ⟨"admin123", "newpw"⟩)).1.status = 200 ∧
    authenticateUser sampleVerify (changePasswordHandler sampleVerify sampleHash
        [sampleUser] 5 ("admin") (some ⟨"admin123", "newpw"⟩)).2 ("admin") ("newpw") =
      .ok { sampleUser with passwordHash := sampleHash ("newpw"), updatedAt := 5 } ∧
    authenticateUser sampleVerify (changePasswordHandler sampleVerify sampleHash
        [sampleUser] 5 ("admin") (some ⟨"admin123", "newpw"⟩)).2 ("admin") ("admin123") =
      .error ("invalid password") := by
  have h := claim_C5_change_password_roundtrip sampleVerify sampleHash [sampleUser] 5
    ("admin") ("admin123") ("newpw") sampleUser (by rfl) (by decide) (by decide)
    (by decide)
  exact ⟨h.1, h.2.2.1, h.2.2.2⟩

/-- C8: `CreateUser` rejects a duplicate username outright, a successful
`CreateUser` preserves the one-record-per-username invariant, and the
`initAuth` bootstrap is idempotent: it skips creation whenever the admin
record exists, and a second startup after any first one changes
nothing. -/
theorem claim_C8_unique_usernames (users : List User) (hashF : String → String)
    (adminUsername adminPassword : String) (now later : Int) :
    (∀ username passwordHash role t,
       users.any (fun u => u.username == username) = true →
       CreateUser users username passwordHash role t = .error ("user already exists")) ∧
    (∀ username passwordHash role t users',
       List.Pairwise (fun a b => a.username ≠ b.username) users →
       CreateUser users username passwordHash role t = .ok users' →
       List.Pairwise (fun a b => a.username ≠ b.username) users') ∧
    (∀ u, GetUser users adminUsername = .ok u →
       initAuth hashF users adminUsername adminPassword now = .ok users) ∧
    (∀ users', initAuth hashF users adminUsername adminPassword now = .ok users' →
       initAuth hashF users' adminUsername adminPassword later = .ok users') := by
  refine ⟨?_, ?_, ?_, ?_⟩
  · intro username passwordHash role t h
    rw [CreateUser, if_pos h]
  · intro username passwordHash role t users' hpw hok
    rw [CreateUser] at hok
    by_cases hany : (users.any fun u => u.username == username) = true
    · rw [if_pos hany] at hok
      exact absurd hok (by simp)
    · rw [if_neg hany] at hok
      obtain rfl : users ++ [⟨users.length + 1, username, passwordHash, role, t, t⟩]
          = users' := by simpa using hok
      rw [List.pairwise_append]
      refine ⟨hpw, by simp, ?_⟩
      intro a ha b hb
      obtain rfl : b = ⟨users.length + 1, username, passwordHash, role, t, t⟩ := by
        simpa using hb
      intro he
      exact hany (List.any_eq_true.mpr ⟨a, ha, by simp [he]⟩)
  · intro u hu
    rw [initAuth, hu]
  · intro users' hinit
    cases hg : GetUser users adminUsername with
    | ok u =>
      have he : initAuth hashF users adminUsername adminPassword now = .ok users := by
        rw [initAuth, hg]
      rw [he] at hinit
      obtain rfl : users = users' := by simpa using hinit
      rw [initAuth, hg]
    | error e =>
      have he : initAuth hashF users adminUsername adminPassword now =
          CreateUser users adminUsername (hashF adminPassword) "admin" now := by
        rw [initAuth, hg]
      rw [he, CreateUser] at hinit
      by_cases hany : (users.any fun u => u.username == adminUsername) = true
      · rw [if_pos hany] at hinit
        exact absurd hinit (by simp)
      · rw [if_neg hany] at hinit
        obtain rfl : users ++ [⟨users.length + 1, adminUsername,
            hashF adminPassword, "admin", now, now⟩] = users' := by simpa using hinit
        have hfind : users.find? (fun u => u.username == adminUsername) = none := by
          cases hf : users.find? (fun u => u.username == adminUsername) with
          | none => rfl
          | some u =>
            rw [GetUser, hf] at hg
            exact absurd hg (by simp)
        have hgu : GetUser (users ++ [⟨users.length + 1, adminUsername,
            hashF adminPassword, "admin", now, now⟩]) adminUsername =
            .ok ⟨users.length + 1, adminUsername, hashF adminPassword,
              "admin", now, now⟩ := by
          rw [GetUser, List.find?_append, hfind]
          simp [List.find?_cons]
        rw [initAuth, hgu]

/-- Witness for C8 at concrete stores. -/
theorem claim_C8_witness :
    CreateUser [sampleUser] ("admin") ("#x") ("admin") 3 =
      .error ("user already exists") ∧
    initAuth sampleHash [sampleUser] ("admin") ("admin123") 3 = .ok [sampleUser] := by
  have h := claim_C8_unique_usernames [sampleUser] sampleHash ("admin") ("admin123") 3 4
  exact ⟨h.1 ("admin") ("#x") ("admin") 3 (by decide),
    h.2.2.1 sampleUser (by rfl)⟩

/-- C4: for any decoder behaviour and any CLI output, each list
operation returns a result rather than failing on malformed lines, and
the number of returned records never exceeds the number of scanned
lines. -/
theorem claim_C4_list_never_fails_on_bad_line
    (decodeC : Str → Option DockerContainer) (decodeI : Str → Option DockerImage)
    (decodeV : Str → Option DockerVolume) (decodeN : Str → Option DockerNetwork)
    (decodeVS : Str → Option VolumeFieldsVS) (now : Int) (output : Str) :
    (∃ recs, getRealContainers decodeC (.ok output) = .ok recs ∧
       recs.length ≤ (scanLines output).length) ∧
    (∃ recs, getRealImages decodeI now (.ok output) = .ok recs ∧
       recs.length ≤ (scanLines output).length) ∧
    (∃ recs, getRealVolumes decodeV (.ok output) = .ok recs ∧
       recs.length ≤ (scanLines output).length) ∧
    (∃ recs, getRealVolumesVS decodeVS (.ok output) = .ok recs ∧
       recs.length ≤ (goSplit (trimSpace output) ['\n']).length) ∧
    (∃ recs, getRealNetworks decodeN (.ok output) = .ok recs ∧
       recs.length ≤ (scanLines output).length) := by
  refine ⟨⟨_, rfl, ?_⟩, ⟨_, rfl, ?_⟩, ⟨_, rfl, ?_⟩, ⟨_, rfl, ?_⟩, ⟨_, rfl, ?_⟩⟩ <;>
    exact List.length_filterMap_le _ _

/-- C9: the search handler always answers 200 for a non-empty query with
both result keys, the local key carrying exactly the images whose
repo:tag matches the query case-insensitively, and a failure of either
source leaves the other source's results intact. -/
theorem claim_C9_search_partial_tolerance (images : List FrontendImage)
    (hubDecode : Str → Option JObj) (hubOutput : Str) (localErr hubErr : String)
    (query : Str) (hq : query ≠ []) :
    searchLocalImages (.ok images) query =
      .ok ((images.filter (fun img => img.repoTags.any
          (fun tag => goContains (toLowerStr tag) (toLowerStr query)))).map
          (fun img => ⟨img.id, img.repoTags, img.size, img.created⟩)) ∧
    (∀ localRes hubRes, searchLocalImages (.ok images) query = .ok localRes →
       searchDockerHub hubDecode (.ok hubOutput) = .ok hubRes →
       searchImages (.ok images) hubDecode (.ok hubOutput) query =
         ⟨200, .search localRes hubRes⟩) ∧
    (∀ hubRes, searchDockerHub hubDecode (.ok hubOutput) = .ok hubRes →
       searchImages (.error localErr) hubDecode (.ok hubOutput) query =
         ⟨200, .search [] hubRes⟩) ∧
    (∀ localRes, searchLocalImages (.ok images) query = .ok localRes →
       searchImages (.ok images) hubDecode (.error hubErr) query =
         ⟨200, .search localRes []⟩) ∧
    searchImages (.error localErr) hubDecode (.error hubErr) query =
      ⟨200, .search [] []⟩ := by
  have hlocErr : searchLocalImages (.error localErr) query = .error localErr := rfl
  have hhubErr : searchDockerHub hubDecode (.error hubErr) = .error hubErr := rfl
  refine ⟨?_, ?_, ?_, ?_, ?_⟩
  · rw [searchLocalImages]
    exact congrArg Except.ok (filterMap_guard_eq_filter_map _ _ _)
  · intro localRes hubRes hloc hhub
    rw [searchImages, if_neg hq, hloc, hhub]
  · intro hubRes hhub
    rw [searchImages, if_neg hq, hlocErr, hhub]
  · intro localRes hloc
    rw [searchImages, if_neg hq, hloc, hhubErr]
  · rw [searchImages, if_neg hq, hlocErr, hhubErr]

/-- Witness for C9: with both sources failing, the query still answers
200 with both (empty) result keys. -/
theorem claim_C9_witness :
    searchImages (.error ("local boom")) (fun _ => none) (.error ("hub boom"))
      ("ng".data) = ⟨200, .search [] []⟩ :=
  (claim_C9_search_partial_tolerance [] (fun _ => none) [] ("local boom")
    ("hub boom") ("ng".data) (by decide)).2.2.2.2

/-- C1 counterexample: the docker-service handler at a volume that is
referenced by a (possibly stopped) container, with the force flag unset:
it does not answer Conflict and it invokes the removal command, so the
claim's unconditional Conflict pre-check does not hold for every DELETE
endpoint of the repository. -/
theorem claim_C1_counterexample :
    isVolumeInUse sampleHost ("data") = true ∧
    (deleteVolumeDS sampleHost true ("data") false).1.status ≠ 409 ∧
    (deleteVolumeDS sampleHost true ("data") false).2.2 =
      [Cmd.volumeRm false ("data")] := by
  refine ⟨by rfl, by decide, by rfl⟩

/-- C1 (amended): the volume-service DELETE handler implements the rule —
in-use without force answers 409 Conflict, leaves the host untouched and
never invokes removal, while force removes unconditionally with no
pre-check; the docker-service DELETE handler invokes removal
unconditionally for every request, with no in-use pre-check. -/
theorem claim_C1_volume_delete (host : DockerHost) (rmOk : Bool) (name : String) :
    (isVolumeInUse host name = true →
       deleteVolumeVS host rmOk name false =
         (⟨409, .text ("Volume is currently in use by one or more containers. Use force=true to delete anyway.")⟩,
          host, [.psFilterVolume name])) ∧
    (deleteVolumeVS host rmOk name true).2.2 = [.volumeRm true name] ∧
    ∀ force, (deleteVolumeDS host rmOk name force).2.2 = [.volumeRm force name] := by
  refine ⟨?_, ?_, ?_⟩
  · intro hused
    rw [deleteVolumeVS, if_pos ⟨rfl, hused⟩]
  · rw [deleteVolumeVS, if_neg (by simp)]
    cases rmOk <;> simp
  · intro force
    rw [deleteVolumeDS]
    cases rmOk <;> simp

/-- Witness for C1: against the one-volume one-container host, the
volume-service handler answers Conflict without touching anything. -/
theorem claim_C1_witness :
    deleteVolumeVS sampleHost true ("data") false =
      (⟨409, .text ("Volume is currently in use by one or more containers. Use force=true to delete anyway.")⟩,
       sampleHost, [Cmd.psFilterVolume ("data")]) ∧
    (deleteVolumeVS sampleHost true ("data") true).2.2 =
      [Cmd.volumeRm true ("data")] := by
  have h := claim_C1_volume_delete sampleHost true ("data")
  exact ⟨h.1 (by rfl), h.2.1⟩

end DockMaster
